import Mathlib

/-!
Verification development for the retry/backoff helper of the
el-professor-cli repository.

The embedding models, one-to-one from the source:

* the error class hierarchy of `ErrorHandler` (`ElProfessorError`,
  `ConfigurationError`, `MCPConnectionError`, `GenAIError`, plain `Error`) as
  a `JsError` record carrying the concrete class tag and the message string;
* `ErrorHandler.isRetryableError`, with JavaScript `String.includes`
  implemented as an executable substring search;
* `RetryHelper.executeWithRetry`: the for-loop over `attempt = 1 ..
  config.maxAttempts` is embedded as a fuel-indexed recursion whose fuel is
  chosen large enough that it is never exhausted (the loop performs at most
  `maxAttempts` iterations); the wrapped asynchronous operation is embedded
  as a function from the 1-based invocation index to a result
  (`Except JsError A`), and `Math.random` as a stream of rational draws
  indexed by attempt; the model returns the outcome, the number of times the
  operation was invoked and the list of delays slept;
* `RetryHelper.calculateDelay` over exact rational arithmetic, with
  `Math.random()` as an explicit parameter and `Math.floor` as `Int.floor`;
* `RetryHelper.executeWithTimeout`: `Promise.race` of the operation against
  the `setTimeout` timer is embedded by an explicit scheduling parameter
  recording which of the two settles first.
-/

namespace ElProfessorCli

/-- Concrete class of a JavaScript error value, mirroring the class
hierarchy in the source: plain `Error`, `ElProfessorError` and its three
subclasses. `instanceof` checks in `isRetryableError` test the two leaf
classes `MCPConnectionError` and `GenAIError` only. -/
inductive ErrClass where
  | plainError
  | elProfessorError
  | configurationError
  | mcpConnectionError
  | genAIError
deriving DecidableEq

/-- A JavaScript error value as far as `isRetryableError` inspects it:
its concrete class and its `message` string. -/
structure JsError where
  cls : ErrClass
  message : String
deriving DecidableEq

/-- Whether `pat` is a prefix of the second list (character-wise equality). -/
def isPrefixChars : List Char → List Char → Bool
  | [], _ => true
  | _ :: _, [] => false
  | a :: pat, b :: rest => a == b && isPrefixChars pat rest

/-- Whether `pat` occurs as a contiguous run inside the second list. -/
def containsChars (pat : List Char) : List Char → Bool
  | [] => pat.isEmpty
  | c :: rest => isPrefixChars pat (c :: rest) || containsChars pat rest

/-- JavaScript `s.includes(pat)`: substring test on the characters. -/
def strIncludes (s pat : String) : Bool :=
  containsChars pat.toList s.toList

/-- `ErrorHandler.isRetryableError`: `MCPConnectionError` is retryable;
a `GenAIError` is retryable when its message includes a rate limit,
timeout or service unavailable marker; everything else is not. -/
def isRetryableError (e : JsError) : Bool :=
  if e.cls = ErrClass.mcpConnectionError then
    true
  else if e.cls = ErrClass.genAIError then
    strIncludes e.message "rate limit" ||
      strIncludes e.message "timeout" ||
      strIncludes e.message "service unavailable"
  else
    false

/-- The `RetryOptions` record of the source. `maxAttempts` is kept as an
integer (the claims only give it integral values; the loop condition
`attempt <= maxAttempts` is over integers); durations and the exponential
base are exact rationals. -/
structure RetryOptions where
  maxAttempts : ℤ
  baseDelay : ℚ
  maxDelay : ℚ
  exponentialBase : ℚ
  jitter : Bool
deriving DecidableEq

/-- `Partial RetryOptions` of the caller: `none` models an absent field. -/
structure PartialRetryOptions where
  maxAttempts : Option ℤ
  baseDelay : Option ℚ
  maxDelay : Option ℚ
  exponentialBase : Option ℚ
  jitter : Option Bool
deriving DecidableEq

/-- The default field values written literally in `executeWithRetry`. -/
def defaultRetryOptions : RetryOptions :=
  { maxAttempts := 3
    baseDelay := 1000
    maxDelay := 10000
    exponentialBase := 2
    jitter := true }

/-- The object-spread merge `const config = ... defaults ...options` of
`executeWithRetry`: a field present in `options` overrides the default. -/
def mergeOptions (options : PartialRetryOptions) : RetryOptions :=
  { maxAttempts := options.maxAttempts.getD defaultRetryOptions.maxAttempts
    baseDelay := options.baseDelay.getD defaultRetryOptions.baseDelay
    maxDelay := options.maxDelay.getD defaultRetryOptions.maxDelay
    exponentialBase := options.exponentialBase.getD defaultRetryOptions.exponentialBase
    jitter := options.jitter.getD defaultRetryOptions.jitter }

/-- `RetryHelper.calculateDelay` in exact arithmetic. `attempt` is the
1-based attempt index, `rand` the value of the single `Math.random()` call
(a rational in `[0,1)`). `Math.floor` is `Int.floor` and is applied on
every path, jitter or not, exactly as in the source. -/
def calculateDelay (attempt : ℕ) (config : RetryOptions) (rand : ℚ) : ℤ :=
  let exponentialDelay : ℚ := config.baseDelay * config.exponentialBase ^ (attempt - 1)
  let delay : ℚ := min exponentialDelay config.maxDelay
  let jittered : ℚ :=
    if config.jitter then
      let jitterRange := delay * (1 / 4)
      let jitterVal := (rand - 1 / 2) * 2 * jitterRange
      max 0 (delay + jitterVal)
    else
      delay
  ⌊jittered⌋

/-- Outcome of a call to `executeWithRetry`: a returned value, a thrown
error from an invocation of the operation, or the synthetic
`new Error` with message `Max retry attempts exceeded` thrown when
`lastError` is still `null` after the loop. -/
inductive RetryOutcome (A : Type) where
  | ok (value : A)
  | err (e : JsError)
  | maxAttemptsExceeded
deriving DecidableEq

/-- Observable trace of one call to `executeWithRetry`: its outcome, how
many times the operation was invoked, and the delays slept between
attempts, in order. -/
structure RetryTrace (A : Type) where
  outcome : RetryOutcome A
  calls : ℕ
  delays : List ℤ
deriving DecidableEq

/-- `throw lastError || new Error('Max retry attempts exceeded')`: the path
taken when the for-loop exits without returning or throwing. -/
def finalOutcome {A : Type} : Option JsError → RetryOutcome A
  | some e => RetryOutcome.err e
  | none => RetryOutcome.maxAttemptsExceeded

/-- The for-loop body of `executeWithRetry`, one recursive step per loop
iteration. `attempt` is the 1-based loop counter, `lastError` the
accumulator variable, and the fuel argument only bounds the recursion: it
is chosen by `runRetry` so that it can never reach `0` while the loop
condition still holds, and the fuel-exhausted branch coincides with the
loop-exit branch, so the model agrees with the unbounded JavaScript loop. -/
def retryLoop {A : Type} (operation : ℕ → Except JsError A) (config : RetryOptions)
    (rand : ℕ → ℚ) : ℕ → Option JsError → ℕ → RetryTrace A
  | _, lastError, 0 => ⟨finalOutcome lastError, 0, []⟩
  | attempt, lastError, fuel + 1 =>
    if (attempt : ℤ) ≤ config.maxAttempts then
      match operation attempt with
      | Except.ok value => ⟨RetryOutcome.ok value, 1, []⟩
      | Except.error e =>
        if (attempt : ℤ) = config.maxAttempts then
          ⟨RetryOutcome.err e, 1, []⟩
        else if ! isRetryableError e then
          ⟨RetryOutcome.err e, 1, []⟩
        else
          let d := calculateDelay attempt config (rand attempt)
          let t := retryLoop operation config rand (attempt + 1) (some e) fuel
          ⟨t.outcome, t.calls + 1, d :: t.delays⟩
    else
      ⟨finalOutcome lastError, 0, []⟩

/-- `executeWithRetry` for an already-merged configuration: the loop starts
at `attempt = 1` with `lastError = null`. The fuel `maxAttempts.toNat + 1`
strictly exceeds the number of loop iterations. -/
def runRetry {A : Type} (operation : ℕ → Except JsError A) (config : RetryOptions)
    (rand : ℕ → ℚ) : RetryTrace A :=
  retryLoop operation config rand 1 none (config.maxAttempts.toNat + 1)

/-- `RetryHelper.executeWithRetry`: merge the caller's partial options over
the defaults, then run the retry loop. -/
def executeWithRetry {A : Type} (operation : ℕ → Except JsError A)
    (options : PartialRetryOptions) (rand : ℕ → ℚ) : RetryTrace A :=
  runRetry operation (mergeOptions options) rand

/-- Which of the two racing promises in `executeWithTimeout` settles
first: the wrapped operation or the `setTimeout` timer. -/
inductive RaceWinner where
  | operation
  | timer
deriving DecidableEq

/-- The message of the error built by the timer branch of
`executeWithTimeout`. -/
def timeoutMessage (timeoutMs : ℕ) (context : String) : String :=
  "Operation timed out after " ++ toString timeoutMs ++ "ms in " ++ context

/-- `RetryHelper.executeWithTimeout`: `Promise.race` of the operation
against the timer. `opResult` is how the operation's promise settles,
`winner` records which promise settles first; the race returns the
winner's settlement and discards the loser's. -/
def executeWithTimeout {A : Type} (opResult : Except JsError A) (timeoutMs : ℕ)
    (context : String) (winner : RaceWinner) : Except JsError A :=
  match winner with
  | RaceWinner.operation => opResult
  | RaceWinner.timer =>
    Except.error ⟨ErrClass.plainError, timeoutMessage timeoutMs context⟩

/-! Substring search: correctness of the executable `includes` model. -/

lemma isPrefixChars_iff (p : List Char) : ∀ l : List Char,
    isPrefixChars p l = true ↔ ∃ t, l = p ++ t := by
  induction p with
  | nil => intro l; simp [isPrefixChars]
  | cons a p ih =>
    intro l
    cases l with
    | nil => simp [isPrefixChars]
    | cons b l =>
      simp only [isPrefixChars, Bool.and_eq_true, beq_iff_eq, ih, List.cons_append,
        List.cons.injEq]
      constructor
      · rintro ⟨rfl, t, rfl⟩
        exact ⟨t, rfl, rfl⟩
      · rintro ⟨t, rfl, rfl⟩
        exact ⟨rfl, t, rfl⟩

lemma containsChars_iff (p : List Char) : ∀ l : List Char,
    containsChars p l = true ↔ ∃ s t, l = s ++ p ++ t := by
  intro l
  induction l with
  | nil =>
    simp only [containsChars, List.isEmpty_iff]
    constructor
    · rintro rfl
      exact ⟨[], [], rfl⟩
    · rintro ⟨s, t, h⟩
      rcases List.append_eq_nil.mp h.symm with ⟨h1, h2⟩
      exact (List.append_eq_nil.mp h1).2
  | cons c l ih =>
    simp only [containsChars, Bool.or_eq_true, isPrefixChars_iff, ih]
    constructor
    · rintro (⟨t, h⟩ | ⟨s, t, rfl⟩)
      · exact ⟨[], t, by simpa using h⟩
      · exact ⟨c :: s, t, rfl⟩
    · rintro ⟨s, t, h⟩
      cases s with
      | nil =>
        left
        exact ⟨t, by simpa using h⟩
      | cons c' s =>
        right
        rcases List.cons.injEq .. ▸ h with ⟨rfl, h2⟩
        exact ⟨s, t, by simpa using h2⟩

lemma string_data_append (a b : String) : (a ++ b).data = a.data ++ b.data := rfl

lemma string_eq_of_data {a b : String} (h : a.data = b.data) : a = b := by
  cases a; cases b; exact congrArg String.mk h

lemma strIncludes_iff (s pat : String) :
    strIncludes s pat = true ↔ ∃ l r : String, s = l ++ pat ++ r := by
  rw [strIncludes, containsChars_iff]
  constructor
  · rintro ⟨u, v, huv⟩
    refine ⟨⟨u⟩, ⟨v⟩, string_eq_of_data ?_⟩
    simpa [string_data_append] using huv
  · rintro ⟨l, r, rfl⟩
    exact ⟨l.data, r.data, by simp [string_data_append]⟩

/-- C9: `isRetryableError(e)` returns true exactly when `e` is an
`MCPConnectionError`, or a `GenAIError` whose message contains one of the
substrings `rate limit`, `timeout` or `service unavailable`; every other
error, plain `Error` and `ConfigurationError` included, yields false. -/
theorem isRetryableError_characterization (e : JsError) :
    isRetryableError e = true ↔
      e.cls = ErrClass.mcpConnectionError ∨
        (e.cls = ErrClass.genAIError ∧
          ((∃ l r : String, e.message = l ++ "rate limit" ++ r) ∨
           (∃ l r : String, e.message = l ++ "timeout" ++ r) ∨
           (∃ l r : String, e.message = l ++ "service unavailable" ++ r))) := by
  obtain ⟨cls, msg⟩ := e
  cases cls <;> simp [isRetryableError, strIncludes_iff, or_assoc]

/-! Behaviour of the retry loop. -/

lemma retryLoop_ok {A : Type} (operation : ℕ → Except JsError A) (config : RetryOptions)
    (rand : ℕ → ℚ) (n : ℕ) (v : A)
    (hn : (n : ℤ) ≤ config.maxAttempts)
    (hsucc : operation n = Except.ok v) :
    ∀ (fuel attempt : ℕ) (lastError : Option JsError), 1 ≤ attempt → attempt ≤ n →
      (∀ k, attempt ≤ k → k < n →
        ∃ e, operation k = Except.error e ∧ isRetryableError e = true) →
      n - attempt + 1 ≤ fuel →
      (retryLoop operation config rand attempt lastError fuel).outcome
          = RetryOutcome.ok v ∧
      (retryLoop operation config rand attempt lastError fuel).calls
          = n - attempt + 1 := by
  intro fuel
  induction fuel with
  | zero =>
    intro attempt lastError h1 h2 _ hfuel
    omega
  | succ fuel ih =>
    intro attempt lastError h1 h2 herr hfuel
    have hcond : ((attempt : ℤ) ≤ config.maxAttempts) :=
      le_trans (by exact_mod_cast h2) hn
    rcases eq_or_lt_of_le h2 with rfl | hlt
    · refine ⟨?_, ?_⟩ <;> simp [retryLoop, hcond, hsucc]
    · obtain ⟨e, hop, hret⟩ := herr attempt le_rfl hlt
      have hne : ((attempt : ℤ) ≠ config.maxAttempts) := by
        intro hEq
        have hnm : (n : ℤ) ≤ (attempt : ℤ) := hEq ▸ hn
        have : n ≤ attempt := by exact_mod_cast hnm
        omega
      have hrec := ih (attempt + 1) (some e) (by omega) (by omega)
        (fun k hk1 hk2 => herr k (by omega) hk2) (by omega)
      constructor
      · simp [retryLoop, hcond, hop, hne, hret, hrec.1]
      · simp [retryLoop, hcond, hop, hne, hret, hrec.2]
        omega

lemma retryLoop_allFail {A : Type} (operation : ℕ → Except JsError A)
    (config : RetryOptions) (rand : ℕ → ℚ) (errf : ℕ → JsError)
    (hop : ∀ k, operation k = Except.error (errf k))
    (hret : ∀ k, isRetryableError (errf k) = true) :
    ∀ (fuel attempt : ℕ) (lastError : Option JsError), 1 ≤ attempt →
      (attempt : ℤ) ≤ config.maxAttempts →
      config.maxAttempts.toNat + 1 ≤ attempt + fuel →
      (retryLoop operation config rand attempt lastError fuel).outcome
          = RetryOutcome.err (errf config.maxAttempts.toNat) ∧
      (retryLoop operation config rand attempt lastError fuel).calls
          = config.maxAttempts.toNat - attempt + 1 := by
  intro fuel
  induction fuel with
  | zero =>
    intro attempt lastError h1 h2 hfuel
    omega
  | succ fuel ih =>
    intro attempt lastError h1 h2 hfuel
    by_cases hEq : ((attempt : ℤ) = config.maxAttempts)
    · have hAtt : attempt = config.maxAttempts.toNat := by omega
      refine ⟨?_, ?_⟩ <;> simp [retryLoop, h2, hop attempt, hEq, ← hAtt]
    · have hrec := ih (attempt + 1) (some (errf attempt)) (by omega)
        (by omega) (by omega)
      constructor
      · simp [retryLoop, h2, hop attempt, hEq, hret attempt, hrec.1]
      · simp [retryLoop, h2, hop attempt, hEq, hret attempt, hrec.2]
        omega

lemma retryLoop_err {A : Type} (operation : ℕ → Except JsError A)
    (config : RetryOptions) (rand : ℕ → ℚ) :
    ∀ (fuel attempt : ℕ) (lastError : Option JsError), 1 ≤ attempt →
      (attempt : ℤ) ≤ config.maxAttempts →
      config.maxAttempts.toNat + 1 ≤ attempt + fuel →
      1 ≤ (retryLoop operation config rand attempt lastError fuel).calls ∧
      ((attempt + (retryLoop operation config rand attempt lastError fuel).calls - 1 : ℕ) : ℤ)
          ≤ config.maxAttempts ∧
      (retryLoop operation config rand attempt lastError fuel).outcome
          ≠ RetryOutcome.maxAttemptsExceeded ∧
      ∀ e, (retryLoop operation config rand attempt lastError fuel).outcome
            = RetryOutcome.err e →
        operation (attempt + (retryLoop operation config rand attempt lastError fuel).calls - 1)
          = Except.error e := by
  intro fuel
  induction fuel with
  | zero =>
    intro attempt lastError h1 h2 hfuel
    omega
  | succ fuel ih =>
    intro attempt lastError h1 h2 hfuel
    cases hopa : operation attempt with
    | ok v =>
      have htr : retryLoop operation config rand attempt lastError (fuel + 1)
          = ⟨RetryOutcome.ok v, 1, []⟩ := by
        simp [retryLoop, h2, hopa]
      rw [htr]
      refine ⟨le_rfl, by simpa using h2, by simp, ?_⟩
      intro e' he'
      simp at he'
    | error e =>
      by_cases hEq : ((attempt : ℤ) = config.maxAttempts)
      · have htr : retryLoop operation config rand attempt lastError (fuel + 1)
            = ⟨RetryOutcome.err e, 1, []⟩ := by
          simp [retryLoop, h2, hopa, hEq]
        rw [htr]
        refine ⟨le_rfl, by simpa using h2, by simp, ?_⟩
        intro e' he'
        simp only [RetryOutcome.err.injEq] at he'
        rw [← he']
        simpa using hopa
      · by_cases hretb : isRetryableError e = true
        · have hrec := ih (attempt + 1) (some e) (by omega) (by omega) (by omega)
          obtain ⟨hc1, hc2, hc3, hc4⟩ := hrec
          have htr : retryLoop operation config rand attempt lastError (fuel + 1)
              = ⟨(retryLoop operation config rand (attempt + 1) (some e) fuel).outcome,
                 (retryLoop operation config rand (attempt + 1) (some e) fuel).calls + 1,
                 calculateDelay attempt config (rand attempt)
                   :: (retryLoop operation config rand (attempt + 1) (some e) fuel).delays⟩ := by
            simp [retryLoop, h2, hopa, hEq, hretb]
          rw [htr]
          dsimp only
          refine ⟨by omega, by omega, hc3, ?_⟩
          intro e' he'
          have h4 := hc4 e' he'
          have hidx : attempt + 1
                + (retryLoop operation config rand (attempt + 1) (some e) fuel).calls - 1
              = attempt
                + ((retryLoop operation config rand (attempt + 1) (some e) fuel).calls + 1) - 1 := by
            omega
          rw [hidx] at h4
          exact h4
        · rw [Bool.not_eq_true] at hretb
          have htr : retryLoop operation config rand attempt lastError (fuel + 1)
              = ⟨RetryOutcome.err e, 1, []⟩ := by
            simp [retryLoop, h2, hopa, hEq, hretb]
          rw [htr]
          refine ⟨le_rfl, by simpa using h2, by simp, ?_⟩
          intro e' he'
          simp only [RetryOutcome.err.injEq] at he'
          rw [← he']
          simpa using hopa

/-- C1: for `1 ≤ n ≤ maxAttempts`, an operation that fails on its first
`n-1` invocations with errors the predicate classifies retryable and
succeeds on invocation `n` is invoked exactly `n` times, and
`executeWithRetry` returns the `n`-th invocation's value. -/
theorem executeWithRetry_retryable_then_success {A : Type}
    (operation : ℕ → Except JsError A) (config : RetryOptions) (rand : ℕ → ℚ)
    (n : ℕ) (v : A)
    (hn1 : 1 ≤ n) (hn2 : (n : ℤ) ≤ config.maxAttempts)
    (hfail : ∀ k, 1 ≤ k → k < n →
      ∃ e, operation k = Except.error e ∧ isRetryableError e = true)
    (hsucc : operation n = Except.ok v) :
    (runRetry operation config rand).outcome = RetryOutcome.ok v ∧
    (runRetry operation config rand).calls = n := by
  have h := retryLoop_ok operation config rand n v hn2 hsucc
    (config.maxAttempts.toNat + 1) 1 none le_rfl hn1 hfail (by omega)
  rw [runRetry]
  exact ⟨h.1, by rw [h.2]; omega⟩

/-- Witness for C1: maxAttempts 3, two retryable connection failures, then
success on the third invocation, which is returned after 3 calls. -/
theorem executeWithRetry_retryable_then_success_witness :
    (runRetry
        (fun k => if k < 3 then Except.error ⟨ErrClass.mcpConnectionError, "boom"⟩
          else Except.ok "done")
        ⟨3, 1000, 10000, 2, true⟩ (fun _ => 0)).outcome = RetryOutcome.ok "done" ∧
    (runRetry
        (fun k => if k < 3 then Except.error ⟨ErrClass.mcpConnectionError, "boom"⟩
          else Except.ok "done")
        ⟨3, 1000, 10000, 2, true⟩ (fun _ => 0)).calls = 3 := by
  refine executeWithRetry_retryable_then_success _ _ _ 3 "done"
    (by norm_num) (by norm_num) ?_ rfl
  intro k h1 h2
  refine ⟨⟨ErrClass.mcpConnectionError, "boom"⟩, ?_, rfl⟩
  simp [h2]

/-- C2: an operation that fails on every invocation with retryable errors
is invoked exactly `maxAttempts` times and `executeWithRetry` throws the
error of the last (`maxAttempts`-th) invocation. -/
theorem executeWithRetry_always_retryable_fails {A : Type}
    (operation : ℕ → Except JsError A) (config : RetryOptions) (rand : ℕ → ℚ)
    (errf : ℕ → JsError)
    (hmax : 1 ≤ config.maxAttempts)
    (hop : ∀ k, operation k = Except.error (errf k))
    (hret : ∀ k, isRetryableError (errf k) = true) :
    (runRetry operation config rand).outcome
        = RetryOutcome.err (errf config.maxAttempts.toNat) ∧
    (runRetry operation config rand).calls = config.maxAttempts.toNat := by
  have h := retryLoop_allFail operation config rand errf hop hret
    (config.maxAttempts.toNat + 1) 1 none le_rfl (by omega) (by omega)
  rw [runRetry]
  exact ⟨h.1, by rw [h.2]; omega⟩

/-- Witness for C2: maxAttempts 2, a connection error on every invocation;
2 calls and the last error is thrown. -/
theorem executeWithRetry_always_retryable_fails_witness :
    (runRetry
        (fun _ => (Except.error ⟨ErrClass.mcpConnectionError, "down"⟩ : Except JsError String))
        ⟨2, 1000, 10000, 2, true⟩ (fun _ => 0)).outcome
        = RetryOutcome.err ⟨ErrClass.mcpConnectionError, "down"⟩ ∧
    (runRetry
        (fun _ => (Except.error ⟨ErrClass.mcpConnectionError, "down"⟩ : Except JsError String))
        ⟨2, 1000, 10000, 2, true⟩ (fun _ => 0)).calls = 2 :=
  executeWithRetry_always_retryable_fails _ _ _
    (fun _ => ⟨ErrClass.mcpConnectionError, "down"⟩)
    (by norm_num) (fun _ => rfl) (fun _ => rfl)

/-- C3: an operation whose first invocation fails with a non-retryable
error is invoked exactly once, whatever `maxAttempts` is, and that error
is thrown. -/
theorem executeWithRetry_nonretryable_immediate {A : Type}
    (operation : ℕ → Except JsError A) (config : RetryOptions) (rand : ℕ → ℚ)
    (e : JsError)
    (hmax : 1 ≤ config.maxAttempts)
    (hop : operation 1 = Except.error e)
    (hret : isRetryableError e = false) :
    (runRetry operation config rand).outcome = RetryOutcome.err e ∧
    (runRetry operation config rand).calls = 1 := by
  rw [runRetry]
  by_cases hEq : ((1 : ℤ) = config.maxAttempts)
  · constructor <;> simp [retryLoop, hmax, hop, hEq]
  · constructor <;> simp [retryLoop, hmax, hop, hEq, hret]

/-- Witness for C3: maxAttempts 5, a configuration error on the first
invocation; one call, the same error thrown. -/
theorem executeWithRetry_nonretryable_immediate_witness :
    (runRetry
        (fun _ => (Except.error ⟨ErrClass.configurationError, "bad"⟩ : Except JsError String))
        ⟨5, 1000, 10000, 2, true⟩ (fun _ => 0)).outcome
        = RetryOutcome.err ⟨ErrClass.configurationError, "bad"⟩ ∧
    (runRetry
        (fun _ => (Except.error ⟨ErrClass.configurationError, "bad"⟩ : Except JsError String))
        ⟨5, 1000, 10000, 2, true⟩ (fun _ => 0)).calls = 1 :=
  executeWithRetry_nonretryable_immediate _ _ _
    ⟨ErrClass.configurationError, "bad"⟩ (by norm_num) rfl rfl

/-- C7: an operation that succeeds on its first invocation is invoked
exactly once and its value is returned unchanged (no delays slept). -/
theorem executeWithRetry_first_attempt_success {A : Type}
    (operation : ℕ → Except JsError A) (config : RetryOptions) (rand : ℕ → ℚ)
    (v : A)
    (hmax : 1 ≤ config.maxAttempts)
    (hop : operation 1 = Except.ok v) :
    runRetry operation config rand = ⟨RetryOutcome.ok v, 1, []⟩ := by
  rw [runRetry]
  simp [retryLoop, hmax, hop]

/-- Witness for C7: the default configuration and an operation returning
42 immediately. -/
theorem executeWithRetry_first_attempt_success_witness :
    runRetry (fun _ => (Except.ok 42 : Except JsError ℕ))
        ⟨3, 1000, 10000, 2, true⟩ (fun _ => 0)
      = ⟨RetryOutcome.ok 42, 1, []⟩ :=
  executeWithRetry_first_attempt_success _ _ _ 42 (by norm_num) rfl

/-- C10: with `maxAttempts < 1` the operation is never invoked and the
generic `Max retry attempts exceeded` error is thrown; with
`maxAttempts ≥ 1` the outcome is never that generic error, and any thrown
error was produced by an invocation of the operation at some attempt
`k ∈ [1, maxAttempts]`. -/
theorem executeWithRetry_maxAttempts_guard {A : Type}
    (operation : ℕ → Except JsError A) (config : RetryOptions) (rand : ℕ → ℚ) :
    (config.maxAttempts < 1 →
        runRetry operation config rand
          = ⟨RetryOutcome.maxAttemptsExceeded, 0, []⟩) ∧
    (1 ≤ config.maxAttempts →
        (runRetry operation config rand).outcome ≠ RetryOutcome.maxAttemptsExceeded ∧
        ∀ e, (runRetry operation config rand).outcome = RetryOutcome.err e →
          ∃ k : ℕ, 1 ≤ k ∧ (k : ℤ) ≤ config.maxAttempts ∧
            operation k = Except.error e) := by
  constructor
  · intro hm
    have h0 : config.maxAttempts.toNat = 0 := by omega
    have hc : ¬ ((1 : ℤ) ≤ config.maxAttempts) := by omega
    rw [runRetry, h0]
    simp [retryLoop, hc, finalOutcome]
  · intro hm
    have h := retryLoop_err operation config rand (config.maxAttempts.toNat + 1) 1 none
      le_rfl (by omega) (by omega)
    obtain ⟨hc1, hc2, hc3, hc4⟩ := h
    rw [runRetry]
    refine ⟨hc3, ?_⟩
    intro e he
    exact ⟨1 + (retryLoop operation config rand 1 none (config.maxAttempts.toNat + 1)).calls - 1,
      by omega, hc2, hc4 e he⟩

/-- Witness for C10: with maxAttempts 0 the operation never runs and the
generic error is the outcome; with maxAttempts 1 and an always-failing
operation, the thrown plain error comes from invocation 1. -/
theorem executeWithRetry_maxAttempts_guard_witness :
    runRetry (fun _ => (Except.error ⟨ErrClass.plainError, "x"⟩ : Except JsError ℕ))
        ⟨0, 1000, 10000, 2, true⟩ (fun _ => 0)
      = ⟨RetryOutcome.maxAttemptsExceeded, 0, []⟩ ∧
    ∃ k : ℕ, 1 ≤ k ∧ (k : ℤ) ≤ 1 ∧
      (fun _ => (Except.error ⟨ErrClass.plainError, "x"⟩ : Except JsError ℕ)) k
        = Except.error ⟨ErrClass.plainError, "x"⟩ :=
  ⟨(executeWithRetry_maxAttempts_guard
      (fun _ => (Except.error ⟨ErrClass.plainError, "x"⟩ : Except JsError ℕ))
      ⟨0, 1000, 10000, 2, true⟩ (fun _ => 0)).1 (by norm_num),
   ((executeWithRetry_maxAttempts_guard
      (fun _ => (Except.error ⟨ErrClass.plainError, "x"⟩ : Except JsError ℕ))
      ⟨1, 1000, 10000, 2, true⟩ (fun _ => 0)).2 (by norm_num)).2
      ⟨ErrClass.plainError, "x"⟩ rfl⟩

/-- C4 counterexample: with jitter disabled the computed delay does not
always equal min(baseDelay * exponentialBase^(k-1), maxDelay) exactly.
The source floors the value, so baseDelay 1, exponentialBase 3/2,
maxDelay 10 gives delay 1 at attempt 2 while the exact minimum is 3/2. -/
theorem calculateDelay_no_jitter_not_exact :
    ¬ (((calculateDelay 2 ⟨3, 1, 10, 3 / 2, false⟩ 0 : ℤ) : ℚ)
        = min (((⟨3, 1, 10, 3 / 2, false⟩ : RetryOptions).baseDelay)
            * ((⟨3, 1, 10, 3 / 2, false⟩ : RetryOptions).exponentialBase) ^ (2 - 1))
            ((⟨3, 1, 10, 3 / 2, false⟩ : RetryOptions).maxDelay)) := by
  norm_num [calculateDelay]

/-- C4 amended: with jitter disabled the delay for attempt `k` equals the
floor of min(baseDelay * exponentialBase^(k-1), maxDelay); on the
spec's example (baseDelay 1000, exponentialBase 2, maxDelay 10000, where
every minimum is an integer) the delays are exactly 1000, 2000, 4000,
8000, 10000 (capped), 10000. -/
theorem calculateDelay_no_jitter_floor :
    (∀ (attempt : ℕ) (config : RetryOptions) (rand : ℚ), config.jitter = false →
        calculateDelay attempt config rand
          = ⌊min (config.baseDelay * config.exponentialBase ^ (attempt - 1))
              config.maxDelay⌋) ∧
    (calculateDelay 1 ⟨6, 1000, 10000, 2, false⟩ 0 = 1000 ∧
     calculateDelay 2 ⟨6, 1000, 10000, 2, false⟩ 0 = 2000 ∧
     calculateDelay 3 ⟨6, 1000, 10000, 2, false⟩ 0 = 4000 ∧
     calculateDelay 4 ⟨6, 1000, 10000, 2, false⟩ 0 = 8000 ∧
     calculateDelay 5 ⟨6, 1000, 10000, 2, false⟩ 0 = 10000 ∧
     calculateDelay 6 ⟨6, 1000, 10000, 2, false⟩ 0 = 10000) := by
  constructor
  · intro attempt config rand hj
    simp [calculateDelay, hj]
  · refine ⟨?_, ?_, ?_, ?_, ?_, ?_⟩ <;> norm_num [calculateDelay]

/-- Witness for the amended C4 at the counterexample configuration. -/
theorem calculateDelay_no_jitter_floor_witness :
    calculateDelay 2 ⟨3, 1, 10, 3 / 2, false⟩ 0
      = ⌊min (((⟨3, 1, 10, 3 / 2, false⟩ : RetryOptions).baseDelay)
          * ((⟨3, 1, 10, 3 / 2, false⟩ : RetryOptions).exponentialBase) ^ (2 - 1))
          ((⟨3, 1, 10, 3 / 2, false⟩ : RetryOptions).maxDelay)⌋ :=
  calculateDelay_no_jitter_floor.1 2 ⟨3, 1, 10, 3 / 2, false⟩ 0 rfl

/-- C5 counterexample: the final floor can push the jittered delay more
than 25% below the unjittered value. With baseDelay 2, exponentialBase 2,
maxDelay 10, attempt 1 and random draw 0, the pre-floor value is 3/2 and
the returned delay is 1 < 3/2 = 0.75 * 2. -/
theorem calculateDelay_jitter_below_three_quarters :
    ((calculateDelay 1 ⟨3, 2, 10, 2, true⟩ 0 : ℤ) : ℚ)
      < (3 / 4) * min (((⟨3, 2, 10, 2, true⟩ : RetryOptions).baseDelay)
          * ((⟨3, 2, 10, 2, true⟩ : RetryOptions).exponentialBase) ^ (1 - 1))
          ((⟨3, 2, 10, 2, true⟩ : RetryOptions).maxDelay) := by
  norm_num [calculateDelay]

/-- C5 amended: with jitter enabled and any draw in `[0,1)`, the delay is
non-negative, at most 1.25 times the unjittered value
d = min(baseDelay * exponentialBase^(k-1), maxDelay), and greater than
0.75 * d - 1 (the final floor loses strictly less than one unit below the
25%-jitter lower bound). -/
theorem calculateDelay_jitter_bounds (attempt : ℕ) (config : RetryOptions) (rand : ℚ)
    (hj : config.jitter = true) (hr0 : 0 ≤ rand) (hr1 : rand < 1)
    (hb : 0 ≤ config.baseDelay) (hm : 0 ≤ config.maxDelay)
    (he : 1 ≤ config.exponentialBase) :
    0 ≤ calculateDelay attempt config rand ∧
    ((calculateDelay attempt config rand : ℤ) : ℚ)
      ≤ (5 / 4) * min (config.baseDelay * config.exponentialBase ^ (attempt - 1))
          config.maxDelay ∧
    (3 / 4) * min (config.baseDelay * config.exponentialBase ^ (attempt - 1))
        config.maxDelay - 1
      < ((calculateDelay attempt config rand : ℤ) : ℚ) := by
  have hcd : calculateDelay attempt config rand
      = ⌊max 0 (min (config.baseDelay * config.exponentialBase ^ (attempt - 1)) config.maxDelay
          + (rand - 1 / 2) * 2
            * (min (config.baseDelay * config.exponentialBase ^ (attempt - 1)) config.maxDelay
                * (1 / 4)))⌋ := by
    simp [calculateDelay, hj]
  set d : ℚ := min (config.baseDelay * config.exponentialBase ^ (attempt - 1)) config.maxDelay
    with hd
  have hd0 : 0 ≤ d := le_min (mul_nonneg hb (pow_nonneg (le_trans zero_le_one he) _)) hm
  set x : ℚ := max 0 (d + (rand - 1 / 2) * 2 * (d * (1 / 4))) with hx
  have hx0 : 0 ≤ x := le_max_left _ _
  have hlow : (3 / 4) * d ≤ d + (rand - 1 / 2) * 2 * (d * (1 / 4)) := by
    nlinarith [mul_nonneg hr0 hd0]
  have hxlow : (3 / 4) * d ≤ x := le_trans hlow (le_max_right _ _)
  have hxhigh : x ≤ (5 / 4) * d := by
    have h1 : d + (rand - 1 / 2) * 2 * (d * (1 / 4)) ≤ (5 / 4) * d := by
      nlinarith [mul_nonneg hd0 (by linarith : (0 : ℚ) ≤ 1 - rand)]
    have h2 : (0 : ℚ) ≤ (5 / 4) * d := by linarith
    exact max_le h2 h1
  rw [hcd]
  refine ⟨Int.floor_nonneg.mpr hx0, ?_, ?_⟩
  · exact le_trans (Int.floor_le x) hxhigh
  · have hfl := Int.sub_one_lt_floor x
    linarith

/-- Witness for the amended C5 at the default configuration, attempt 1,
draw 1/2. -/
theorem calculateDelay_jitter_bounds_witness :
    0 ≤ calculateDelay 1 ⟨3, 1000, 10000, 2, true⟩ (1 / 2) ∧
    ((calculateDelay 1 ⟨3, 1000, 10000, 2, true⟩ (1 / 2) : ℤ) : ℚ)
      ≤ (5 / 4) * min (((⟨3, 1000, 10000, 2, true⟩ : RetryOptions).baseDelay)
          * ((⟨3, 1000, 10000, 2, true⟩ : RetryOptions).exponentialBase) ^ (1 - 1))
          ((⟨3, 1000, 10000, 2, true⟩ : RetryOptions).maxDelay) ∧
    (3 / 4) * min (((⟨3, 1000, 10000, 2, true⟩ : RetryOptions).baseDelay)
        * ((⟨3, 1000, 10000, 2, true⟩ : RetryOptions).exponentialBase) ^ (1 - 1))
        ((⟨3, 1000, 10000, 2, true⟩ : RetryOptions).maxDelay) - 1
      < ((calculateDelay 1 ⟨3, 1000, 10000, 2, true⟩ (1 / 2) : ℤ) : ℚ) :=
  calculateDelay_jitter_bounds 1 ⟨3, 1000, 10000, 2, true⟩ (1 / 2) rfl
    (by norm_num) (by norm_num) (by norm_num) (by norm_num) (by norm_num)

/-- C6: executeWithTimeout returns the operation's settlement (value or
failure) when the operation settles before the timer, and when the timer
settles first it rejects with an error whose message contains the
configured milliseconds and the context label, whatever the abandoned
operation's own settlement would have been. -/
theorem executeWithTimeout_race {A : Type} (opResult : Except JsError A)
    (timeoutMs : ℕ) (context : String) (winner : RaceWinner) :
    (winner = RaceWinner.operation →
        executeWithTimeout opResult timeoutMs context winner = opResult) ∧
    (winner = RaceWinner.timer →
        ∃ e : JsError,
          executeWithTimeout opResult timeoutMs context winner = Except.error e ∧
          (∃ l r : String, e.message = l ++ toString timeoutMs ++ r) ∧
          (∃ l r : String, e.message = l ++ context ++ r)) := by
  constructor
  · rintro rfl
    rfl
  · rintro rfl
    refine ⟨⟨ErrClass.plainError, timeoutMessage timeoutMs context⟩, rfl, ?_, ?_⟩
    · refine ⟨"Operation timed out after ", "ms in " ++ context, ?_⟩
      apply string_eq_of_data
      simp [timeoutMessage, string_data_append]
    · refine ⟨"Operation timed out after " ++ toString timeoutMs ++ "ms in ", "", ?_⟩
      apply string_eq_of_data
      simp [timeoutMessage, string_data_append]

/-- Witness for C6: timeout 1000 with context fetchData, operation
settling with the value 7: the operation winning returns 7, the timer
winning rejects with a message containing 1000 and fetchData. -/
theorem executeWithTimeout_race_witness :
    executeWithTimeout (Except.ok 7 : Except JsError ℕ) 1000 "fetchData"
        RaceWinner.operation = Except.ok 7 ∧
    ∃ e : JsError,
      executeWithTimeout (Except.ok 7 : Except JsError ℕ) 1000 "fetchData"
          RaceWinner.timer = Except.error e ∧
      (∃ l r : String, e.message = l ++ toString 1000 ++ r) ∧
      (∃ l r : String, e.message = l ++ "fetchData" ++ r) :=
  ⟨(executeWithTimeout_race (Except.ok 7 : Except JsError ℕ) 1000 "fetchData"
      RaceWinner.operation).1 rfl,
   (executeWithTimeout_race (Except.ok 7 : Except JsError ℕ) 1000 "fetchData"
      RaceWinner.timer).2 rfl⟩

/-- C8: the configuration executeWithRetry runs with is the field-wise
merge of the caller's partial options over the defaults maxAttempts 3,
baseDelay 1000, maxDelay 10000, exponentialBase 2, jitter true: a
supplied field takes the caller's value, an absent field the default. -/
theorem executeWithRetry_uses_merged_options (options : PartialRetryOptions) :
    (∀ (A : Type) (operation : ℕ → Except JsError A) (rand : ℕ → ℚ),
        executeWithRetry operation options rand
          = runRetry operation (mergeOptions options) rand) ∧
    (∀ v, options.maxAttempts = some v → (mergeOptions options).maxAttempts = v) ∧
    (options.maxAttempts = none → (mergeOptions options).maxAttempts = 3) ∧
    (∀ v, options.baseDelay = some v → (mergeOptions options).baseDelay = v) ∧
    (options.baseDelay = none → (mergeOptions options).baseDelay = 1000) ∧
    (∀ v, options.maxDelay = some v → (mergeOptions options).maxDelay = v) ∧
    (options.maxDelay = none → (mergeOptions options).maxDelay = 10000) ∧
    (∀ v, options.exponentialBase = some v → (mergeOptions options).exponentialBase = v) ∧
    (options.exponentialBase = none → (mergeOptions options).exponentialBase = 2) ∧
    (∀ v, options.jitter = some v → (mergeOptions options).jitter = v) ∧
    (options.jitter = none → (mergeOptions options).jitter = true) := by
  refine ⟨fun _ _ _ => rfl, ?_, ?_, ?_, ?_, ?_, ?_, ?_, ?_, ?_, ?_⟩ <;>
    first
      | (intro v hv; simp [mergeOptions, defaultRetryOptions, hv])
      | (intro hv; simp [mergeOptions, defaultRetryOptions, hv])

/-- Witness for C8: options supplying maxAttempts 5 and exponentialBase 3
merge to maxAttempts 5, baseDelay 1000, maxDelay 10000, exponentialBase 3,
jitter true, and executeWithRetry runs the loop on that merge. -/
theorem executeWithRetry_uses_merged_options_witness :
    (mergeOptions ⟨some 5, none, none, some 3, none⟩).maxAttempts = 5 ∧
    (mergeOptions ⟨some 5, none, none, some 3, none⟩).baseDelay = 1000 ∧
    (mergeOptions ⟨some 5, none, none, some 3, none⟩).maxDelay = 10000 ∧
    (mergeOptions ⟨some 5, none, none, some 3, none⟩).exponentialBase = 3 ∧
    (mergeOptions ⟨some 5, none, none, some 3, none⟩).jitter = true ∧
    executeWithRetry (fun _ => (Except.ok 0 : Except JsError ℕ))
        ⟨some 5, none, none, some 3, none⟩ (fun _ => 0)
      = runRetry (fun _ => (Except.ok 0 : Except JsError ℕ))
          (mergeOptions ⟨some 5, none, none, some 3, none⟩) (fun _ => 0) := by
  obtain ⟨h1, h2, h3, h4, h5, h6, h7, h8, h9, h10, h11⟩ :=
    executeWithRetry_uses_merged_options ⟨some 5, none, none, some 3, none⟩
  exact ⟨h2 5 rfl, h5 rfl, h7 rfl, h8 3 rfl, h11 rfl, h1 ℕ _ _⟩

end ElProfessorCli
